import Mathlib

/-!
Verification of the shorty URL shortener core: the short-code generator and
mapping store (createShortURL, getLongURL, shortURLExists, randomString) and
the visit-count aggregator (visitCountCache, the redirect handler's tally
increment, writeCacheToDB).  Definitions are shallow embeddings of the Go
source; the database table url_mapping is modelled as a list of rows in
rowid (insertion) order and the in-memory Go map as an association list
with at most one entry per key.
-/

namespace Shorty

/-- The shortURL section of the JSON configuration (main.go lines 34-37):
the configured code length and the alphabet.  The Go charset is an ASCII
string indexed by byte position; it is modelled as its list of characters. -/
structure Config where
  length : Nat
  charset : List Char

/-- One row of the url_mapping table (unnamed/part_001 lines 70-75):
short_url TEXT PRIMARY KEY, long_url TEXT NOT NULL, visit_count INTEGER
DEFAULT 0, created_at TEXT DEFAULT CURRENT_TIMESTAMP.  Timestamps are
modelled as naturals. -/
structure Row where
  short_url : String
  long_url : String
  visit_count : Nat
  created_at : Nat
deriving DecidableEq

/-- The persistent store: the rows of url_mapping in insertion order. -/
abbrev Store := List Row

/-- The in-memory visit tally visitCountCache (main.go line 20), a Go
map[string]int modelled as an association list with unique keys. -/
abbrev Cache := List (String × Nat)

/-- getLongURL (main.go lines 182-190): SELECT long_url FROM url_mapping
WHERE short_url = ?; sql.ErrNoRows is modelled as none. -/
def getLongURL (store : Store) (shortURL : String) : Option String :=
  (store.find? (fun r => r.short_url == shortURL)).map Row.long_url

/-- shortURLExists (main.go lines 192-199):
SELECT EXISTS(SELECT 1 FROM url_mapping WHERE short_url=?). -/
def shortURLExists (store : Store) (shortURL : String) : Bool :=
  store.any (fun r => r.short_url == shortURL)

/-- The dedup query opening createShortURL (unnamed/part_001 line 264):
SELECT short_url FROM url_mapping WHERE long_url = ? ORDER BY rowid ASC
LIMIT 1; the first row in insertion order with this long_url. -/
def findByLongURL (store : Store) (longURL : String) : Option Row :=
  store.find? (fun r => r.long_url == longURL)

/-- randomString (unnamed/part_001 lines 320-327, identical in main.go lines
201-208): length cryptographically random bytes are drawn and each byte b is
mapped to charset[b % byte(len(charset))].  The random bytes are supplied by
rnd (byte i is rnd i % 256).  byte(len(charset)) is len(charset) % 256; when
that value is 0 the Go modulo in the loop body divides by zero and the call
panics, modelled as none - but only when the loop body runs at all, i.e. at
positive length: randomString(0) never evaluates the modulo and returns the
empty string whatever the charset. -/
def randomString (cfg : Config) (rnd : Nat → Nat) (length : Nat) : Option String :=
  if cfg.charset.length % 256 = 0 ∧ 0 < length then none
  else some (String.mk ((List.range length).map
    (fun i => cfg.charset.getD ((rnd i % 256) % (cfg.charset.length % 256)) 'A')))

/-- A fresh url_mapping row as inserted by createShortURL (unnamed/part_001
line 285): INSERT INTO url_mapping (short_url, long_url, created_at) VALUES
(?, ?, datetime(now)); visit_count takes its schema DEFAULT 0 and created_at
is the insertion time. -/
def newRow (shortURL longURL : String) (now : Nat) : Row :=
  { short_url := shortURL, long_url := longURL, visit_count := 0, created_at := now }

/-- The collision-retry loop of createShortURL (unnamed/part_001 lines
276-293): generate a candidate of the configured length, regenerate while it
exists, insert when fresh.  The Go loop is unbounded; fuel bounds the number
of attempts in the model and none models running out (or a randomString
panic).  rnd a supplies the random bytes of attempt a. -/
def createLoop (cfg : Config) (rnd : Nat → Nat → Nat) (now : Nat)
    (longURL : String) (store : Store) : Nat → Option (String × Store)
  | 0 => none
  | fuel + 1 =>
    match randomString cfg (rnd fuel) cfg.length with
    | none => none
    | some shortURL =>
      if shortURLExists store shortURL then
        createLoop cfg rnd now longURL store fuel
      else
        some (shortURL, store ++ [newRow shortURL longURL now])

/-- createShortURL (unnamed/part_001 lines 261-294): the dedup fast path
returns the existing short_url for this long_url and touches nothing;
otherwise a fresh code is minted in the retry loop and inserted.  (The
variant at main.go lines 153-168 omits the dedup query and hardcodes
randomString(8); the repository's tests in unnamed/part_000 exercise this
part_001 version.) -/
def createShortURL (cfg : Config) (rnd : Nat → Nat → Nat) (now : Nat)
    (fuel : Nat) (store : Store) (longURL : String) : Option (String × Store) :=
  match findByLongURL store longURL with
  | some row => some (row.short_url, store)
  | none => createLoop cfg rnd now longURL store fuel

/-- A Go map read visitCountCache[s]: missing keys read as 0. -/
def cacheCount (cache : Cache) (shortURL : String) : Nat :=
  ((cache.find? (fun p => p.1 == shortURL)).map Prod.snd).getD 0

/-- visitCountCache[shortURL]++ (main.go line 148, the redirect handler's
tally increment): bump an existing entry, or insert the key at 1. -/
def recordVisit (cache : Cache) (shortURL : String) : Cache :=
  match cache with
  | [] => [(shortURL, 1)]
  | (s, c) :: rest =>
    if s == shortURL then (s, c + 1) :: rest
    else (s, c) :: recordVisit rest shortURL

/-- recordVisit iterated n times on the same short code. -/
def recordVisitN (cache : Cache) (shortURL : String) : Nat → Cache
  | 0 => cache
  | n + 1 => recordVisit (recordVisitN cache shortURL n) shortURL

/-- A Go map assignment visitCountCache[s] = v: overwrite an existing entry,
or insert the key at v. -/
def setCount (cache : Cache) (shortURL : String) (v : Nat) : Cache :=
  match cache with
  | [] => [(shortURL, v)]
  | (s, c) :: rest =>
    if s == shortURL then (s, v) :: rest
    else (s, c) :: setCount rest shortURL v

/-- db.Exec(UPDATE url_mapping SET visit_count = visit_count + ? WHERE
short_url = ?) (main.go line 172; with count 1 it is also the redirect-time
increment of unnamed/part_001 line 226): add count to every matching row,
a no-op when the code is absent. -/
def updateVisitCount (store : Store) (count : Nat) (shortURL : String) : Store :=
  store.map (fun r =>
    if r.short_url == shortURL then { r with visit_count := r.visit_count + count } else r)

/-- writeCacheToDB (main.go lines 170-180, identical in unnamed/part_002
lines 206-219): for EVERY cache entry an UPDATE is issued - the loop has no
test for a zero pending count; on success the entry is reset to 0, on error
the loop logs and continues, leaving the pending count in place.  ok names
the entries whose UPDATE succeeds.  The result is the store, the cache, and
the list of issued updates (entry key and added count) in iteration order. -/
def writeCacheToDB (ok : String → Bool) (store : Store) (cache : Cache) :
    Store × Cache × List (String × Nat) :=
  match cache with
  | [] => (store, [], [])
  | (s, c) :: rest =>
    if ok s then
      let r := writeCacheToDB ok (updateVisitCount store c s) rest
      (r.1, (s, 0) :: r.2.1, (s, c) :: r.2.2)
    else
      let r := writeCacheToDB ok store rest
      (r.1, (s, c) :: r.2.1, (s, c) :: r.2.2)

/-- One iteration of the writeCacheToDB loop body (main.go lines 171-178)
split at its three sub-operations - read the entry's pending count, issue
the additive UPDATE, assign 0 - with a concurrent action mid running between
the UPDATE and the reset.  Nothing in the source synchronizes
visitCountCache, so a redirect handler's increment can run there. -/
def flushEntryWithConcurrent (store : Store) (cache : Cache) (s : String)
    (mid : Cache → Cache) : Store × Cache :=
  let count := cacheCount cache s
  let store' := updateVisitCount store count s
  let cache' := mid cache
  (store', setCount cache' s 0)

/-- The persisted visit count of a short code: visit_count summed over the
rows carrying it (at most one row, short_url being the primary key). -/
def dbVisitCount (store : Store) (shortURL : String) : Nat :=
  ((store.filter (fun r => r.short_url == shortURL)).map Row.visit_count).sum

/-- The number of rows carrying a short code (1 when the code is present,
short_url being the primary key). -/
def rowCount (store : Store) (shortURL : String) : Nat :=
  (store.filter (fun r => r.short_url == shortURL)).length

/-- The total pending count recorded under a key; on a cache with unique
keys this coincides with the map read cacheCount. -/
def keySum (cache : Cache) (shortURL : String) : Nat :=
  ((cache.filter (fun p => p.1 == shortURL)).map Prod.snd).sum

/-- The primary-key invariant of url_mapping: no two rows share a short_url. -/
abbrev shortsNodup (store : Store) : Prop := (store.map Row.short_url).Nodup

/-- The Go-map invariant on the modelled tally: no two entries share a key. -/
abbrev keysNodup (cache : Cache) : Prop := (cache.map Prod.fst).Nodup

/-- The fields of a row other than visit_count. -/
def identityFields (r : Row) : String × String × Nat :=
  (r.short_url, r.long_url, r.created_at)

/-- A successful randomString call yields a string of the requested length
whose characters all come from the charset. -/
theorem randomString_eq_some {cfg : Config} {rnd : Nat → Nat} {n : Nat} {s : String}
    (h : randomString cfg rnd n = some s) :
    s.length = n ∧ ∀ ch ∈ s.data, ch ∈ cfg.charset := by
  unfold randomString at h
  by_cases hz : cfg.charset.length % 256 = 0 ∧ 0 < n
  · rw [if_pos hz] at h
    cases h
  · rw [if_neg hz] at h
    simp only [Option.some.injEq] at h
    subst h
    constructor
    · show (String.mk _).data.length = n
      simp
    · intro ch hch
      have hm : ch ∈ (List.range n).map
          (fun i => cfg.charset.getD ((rnd i % 256) % (cfg.charset.length % 256)) 'A') := hch
      rcases List.mem_map.mp hm with ⟨i, hir, hi⟩
      have hn : 0 < n := Nat.lt_of_le_of_lt (Nat.zero_le i) (List.mem_range.mp hir)
      have hmpos : 0 < cfg.charset.length % 256 :=
        Nat.pos_of_ne_zero (fun hc => hz ⟨hc, hn⟩)
      have hidx : (rnd i % 256) % (cfg.charset.length % 256) < cfg.charset.length :=
        lt_of_lt_of_le (Nat.mod_lt _ hmpos) (Nat.mod_le _ _)
      rw [← hi, List.getD_eq_getElem _ _ hidx]
      exact List.getElem_mem hidx

/-- When byte(len(charset)) is non-zero, randomString succeeds. -/
theorem randomString_isSome {cfg : Config} (rnd : Nat → Nat) (n : Nat)
    (h : cfg.charset.length % 256 ≠ 0) :
    ∃ s, randomString cfg rnd n = some s := by
  unfold randomString
  rw [if_neg (fun hc => h hc.1)]
  exact ⟨_, rfl⟩

/-- When byte(len(charset)) is zero - the charset empty or of a length that
is a multiple of 256 - any call that runs the loop body (positive length)
divides by zero. -/
theorem randomString_eq_none {cfg : Config} (rnd : Nat → Nat) (n : Nat)
    (h : cfg.charset.length % 256 = 0) (hn : 0 < n) :
    randomString cfg rnd n = none := by
  unfold randomString
  rw [if_pos ⟨h, hn⟩]

/-- randomString at length 0 returns the empty string whatever the charset:
the Go loop body, and with it the modulo, never runs. -/
theorem randomString_zero (cfg : Config) (rnd : Nat → Nat) :
    randomString cfg rnd 0 = some "" := by
  unfold randomString
  rw [if_neg (fun hc => Nat.lt_irrefl 0 hc.2)]
  rfl

/-- A successful pass of the retry loop appends exactly one fresh row, whose
code was produced by randomString at the configured length. -/
theorem createLoop_eq_some {cfg : Config} {rnd : Nat → Nat → Nat} {now : Nat}
    {longURL : String} {store : Store} {fuel : Nat} {c : String} {store' : Store}
    (h : createLoop cfg rnd now longURL store fuel = some (c, store')) :
    store' = store ++ [newRow c longURL now] ∧ shortURLExists store c = false ∧
      ∃ a, randomString cfg (rnd a) cfg.length = some c := by
  induction fuel with
  | zero => simp [createLoop] at h
  | succ fuel ih =>
    rw [createLoop] at h
    cases hr : randomString cfg (rnd fuel) cfg.length with
    | none => rw [hr] at h; simp at h
    | some s =>
      rw [hr] at h
      dsimp only at h
      by_cases he : shortURLExists store s
      · rw [if_pos he] at h
        exact ih h
      · rw [if_neg he] at h
        simp only [Option.some.injEq, Prod.mk.injEq] at h
        rcases h with ⟨hc, hst⟩
        subst hc
        exact ⟨hst.symm, by simpa using he, fuel, hr⟩

/-- Under the primary-key invariant, looking up the short code of any stored
row returns that row's long URL. -/
theorem getLongURL_mem {store : Store} {r : Row}
    (hnd : shortsNodup store) (hm : r ∈ store) :
    getLongURL store r.short_url = some r.long_url := by
  induction store with
  | nil => cases hm
  | cons a t ih =>
    rcases List.mem_cons.mp hm with rfl | hmt
    · simp [getLongURL, List.find?]
    · have hnd0 : (List.map Row.short_url (a :: t)).Nodup := hnd
      rw [List.map_cons, List.nodup_cons] at hnd0
      obtain ⟨hna, hndt⟩ := hnd0
      have hne : (a.short_url == r.short_url) = false := by
        by_cases hb : a.short_url = r.short_url
        · exact absurd (show a.short_url ∈ t.map Row.short_url from
            hb ▸ List.mem_map_of_mem Row.short_url hmt) hna
        · simpa using hb
      simpa [getLongURL, List.find?, hne] using ih hndt hmt

/-- Looking up a code absent from the store after appending its fresh row
returns the inserted long URL. -/
theorem getLongURL_append_fresh {store : Store} {c u : String} {now : Nat}
    (h : shortURLExists store c = false) :
    getLongURL (store ++ [newRow c u now]) c = some u := by
  induction store with
  | nil => simp [getLongURL, List.find?, newRow]
  | cons a t ih =>
    simp only [shortURLExists, List.any_cons, Bool.or_eq_false_iff] at h
    have := ih (by simp [shortURLExists, h.2])
    simpa [getLongURL, List.find?, h.1] using this

/-- When the dedup query found no row, it finds the freshly inserted one
afterwards. -/
theorem findByLongURL_append_fresh {store : Store} {c u : String} {now : Nat}
    (h : findByLongURL store u = none) :
    findByLongURL (store ++ [newRow c u now]) u = some (newRow c u now) := by
  induction store with
  | nil => simp [findByLongURL, List.find?, newRow]
  | cons a t ih =>
    unfold findByLongURL at h ⊢
    cases hb : (a.long_url == u) with
    | true =>
      rw [List.find?_cons_of_pos _ (by simp [hb])] at h
      cases h
    | false =>
      rw [List.find?_cons_of_neg _ (by simp [hb])] at h
      rw [List.cons_append, List.find?_cons_of_neg _ (by simp [hb])]
      exact ih h

/-- The UPDATE of a visit count changes no other field: the identity fields
of every row are preserved. -/
theorem updateVisitCount_identityFields (store : Store) (count : Nat) (s : String) :
    (updateVisitCount store count s).map identityFields = store.map identityFields := by
  unfold updateVisitCount
  rw [List.map_map]
  apply List.map_congr_left
  intro r _
  by_cases h : r.short_url = s <;> simp [identityFields, h]

/-- The UPDATE of a visit count does not change which rows carry a code. -/
theorem rowCount_updateVisitCount (store : Store) (count : Nat) (s c : String) :
    rowCount (updateVisitCount store count s) c = rowCount store c := by
  induction store with
  | nil => rfl
  | cons a t ih =>
    have ih' := ih
    simp [rowCount, updateVisitCount] at ih'
    by_cases h1 : a.short_url = s
    · by_cases h2 : a.short_url = c
      · have hsc : s = c := h1.symm.trans h2
        subst hsc
        simp [rowCount, updateVisitCount, List.filter_cons, h1, h2, ih']
      · have hsc : ¬ s = c := fun hsc => h2 (h1.trans hsc)
        simp [rowCount, updateVisitCount, List.filter_cons, h1, h2, hsc, ih']
    · by_cases h2 : a.short_url = c
      · have hcs : ¬ c = s := fun hh => h1 (h2.trans hh)
        simp [rowCount, updateVisitCount, List.filter_cons, h1, h2, hcs, ih']
      · simp [rowCount, updateVisitCount, List.filter_cons, h1, h2, ih']

/-- Adding count to the rows of code c raises the persisted count of c by
count for each row carrying c. -/
theorem dbVisitCount_update_self (store : Store) (count : Nat) (c : String) :
    dbVisitCount (updateVisitCount store count c) c =
      dbVisitCount store c + count * rowCount store c := by
  induction store with
  | nil => simp [dbVisitCount, updateVisitCount, rowCount]
  | cons a t ih =>
    have ih' := ih
    simp [dbVisitCount, updateVisitCount, rowCount] at ih'
    by_cases h1 : a.short_url = c
    · simp [dbVisitCount, updateVisitCount, rowCount, List.filter_cons, h1, ih']
      ring
    · simp [dbVisitCount, updateVisitCount, rowCount, List.filter_cons, h1, ih']

/-- Adding to the rows of a different code leaves the persisted count of c
unchanged. -/
theorem dbVisitCount_update_other {s c : String} (hne : s ≠ c) (store : Store) (count : Nat) :
    dbVisitCount (updateVisitCount store count s) c = dbVisitCount store c := by
  induction store with
  | nil => rfl
  | cons a t ih =>
    have ih' := ih
    simp [dbVisitCount, updateVisitCount] at ih'
    by_cases h1 : a.short_url = s
    · have h2 : ¬ a.short_url = c := by rw [h1]; exact hne
      simp [dbVisitCount, updateVisitCount, List.filter_cons, h1, h2, hne, ih']
    · by_cases h2 : a.short_url = c
      · have hcs : ¬ c = s := fun hh => h1 (h2.trans hh)
        simp [dbVisitCount, updateVisitCount, List.filter_cons, h1, h2, hcs, ih']
      · simp [dbVisitCount, updateVisitCount, List.filter_cons, h1, h2, ih']

/-- The cache left by writeCacheToDB: entries whose UPDATE succeeded are
reset to 0, failing entries keep their pending count. -/
theorem writeCacheToDB_cache (ok : String → Bool) (store : Store) (cache : Cache) :
    (writeCacheToDB ok store cache).2.1 =
      cache.map (fun p => if ok p.1 then (p.1, 0) else p) := by
  induction cache generalizing store with
  | nil => rfl
  | cons p rest ih =>
    obtain ⟨s, c⟩ := p
    by_cases h : ok s = true <;>
      simp [writeCacheToDB, h, ih]

/-- writeCacheToDB issues one UPDATE per cache entry, in iteration order,
zero pending counts included: a failure does not stop the loop. -/
theorem writeCacheToDB_upds (ok : String → Bool) (store : Store) (cache : Cache) :
    (writeCacheToDB ok store cache).2.2 = cache := by
  induction cache generalizing store with
  | nil => rfl
  | cons p rest ih =>
    obtain ⟨s, c⟩ := p
    by_cases h : ok s = true <;>
      simp [writeCacheToDB, h, ih]

/-- The flush preserves every row's identity fields: only visit_count moves. -/
theorem writeCacheToDB_identityFields (ok : String → Bool) (store : Store) (cache : Cache) :
    ((writeCacheToDB ok store cache).1).map identityFields = store.map identityFields := by
  induction cache generalizing store with
  | nil => rfl
  | cons p rest ih =>
    obtain ⟨s, c⟩ := p
    by_cases h : ok s = true <;>
      simp [writeCacheToDB, h, ih, updateVisitCount_identityFields]

/-- Unfolding one all-successful step of the flush over the store. -/
theorem writeCacheToDB_fst_cons_all (store : Store) (s : String) (c : Nat) (rest : Cache) :
    (writeCacheToDB (fun _ => true) store ((s, c) :: rest)).1 =
      (writeCacheToDB (fun _ => true) (updateVisitCount store c s) rest).1 := by
  simp [writeCacheToDB]

/-- An all-successful flush adds, for each code, the total pending count of
that code (scaled by its row multiplicity) to the persisted count. -/
theorem writeCacheToDB_dbVisitCount (store : Store) (cache : Cache) (c : String) :
    dbVisitCount ((writeCacheToDB (fun _ => true) store cache).1) c =
      dbVisitCount store c + rowCount store c * keySum cache c := by
  induction cache generalizing store with
  | nil => simp [writeCacheToDB, keySum]
  | cons p rest ih =>
    obtain ⟨s, cnt⟩ := p
    rw [writeCacheToDB_fst_cons_all, ih, rowCount_updateVisitCount]
    by_cases hb : s = c
    · subst hb
      rw [dbVisitCount_update_self]
      simp [keySum, List.filter_cons]
      ring
    · rw [dbVisitCount_update_other hb]
      simp [keySum, List.filter_cons, hb]

/-- A key missing from the tally contributes no pending count. -/
theorem keySum_eq_zero_of_not_mem {cache : Cache} {c : String}
    (h : c ∉ cache.map Prod.fst) : keySum cache c = 0 := by
  induction cache with
  | nil => rfl
  | cons p rest ih =>
    simp only [List.map_cons, List.mem_cons, not_or] at h
    have hne : ¬ p.1 = c := fun hh => h.1 hh.symm
    have hz := ih h.2
    have hstep : keySum (p :: rest) c = keySum rest c := by
      simp [keySum, List.filter_cons, hne]
    rw [hstep, hz]

/-- On a tally with unique keys, the summed pending count of a key is the
Go-map read of that key. -/
theorem keySum_eq_cacheCount {cache : Cache} (c : String) (h : keysNodup cache) :
    keySum cache c = cacheCount cache c := by
  induction cache with
  | nil => rfl
  | cons p rest ih =>
    have h0 : (p.1 :: rest.map Prod.fst).Nodup := h
    rw [List.nodup_cons] at h0
    obtain ⟨hp, hrest⟩ := h0
    by_cases hb : p.1 = c
    · have hbt : (p.1 == c) = true := by simp [hb]
      have hstep1 : keySum (p :: rest) c = p.2 + keySum rest c := by
        simp [keySum, List.filter_cons, hbt]
      have hstep2 : cacheCount (p :: rest) c = p.2 := by
        simp [cacheCount, List.find?, hbt]
      have hz : keySum rest c = 0 := keySum_eq_zero_of_not_mem (hb ▸ hp)
      rw [hstep1, hstep2, hz]
      omega
    · have hbf : (p.1 == c) = false := by simp [hb]
      have hstep1 : keySum (p :: rest) c = keySum rest c := by
        simp [keySum, List.filter_cons, hbf]
      have hstep2 : cacheCount (p :: rest) c = cacheCount rest c := by
        simp [cacheCount, List.find?, hbf]
      rw [hstep1, hstep2, ih hrest]

/-- One recorded visit adds exactly 1 to the pending total of its code. -/
theorem keySum_recordVisit (cache : Cache) (c : String) :
    keySum (recordVisit cache c) c = keySum cache c + 1 := by
  induction cache with
  | nil => simp [recordVisit, keySum, List.filter_cons]
  | cons p rest ih =>
    obtain ⟨s, cnt⟩ := p
    by_cases hb : s = c
    · subst hb
      simp [recordVisit, keySum, List.filter_cons]
      omega
    · simp [recordVisit, keySum, List.filter_cons, hb] at ih ⊢
      omega

/-- n recorded visits add exactly n to the pending total of their code. -/
theorem keySum_recordVisitN (cache : Cache) (c : String) (n : Nat) :
    keySum (recordVisitN cache c n) c = keySum cache c + n := by
  induction n with
  | zero => rfl
  | succ n ih =>
    rw [recordVisitN, keySum_recordVisit, ih]
    omega

/-- After the tally is reset entry-wise to zero, every map read gives 0. -/
theorem cacheCount_reset (cache : Cache) (c : String) :
    cacheCount (cache.map (fun p => (p.1, (0 : Nat)))) c = 0 := by
  induction cache with
  | nil => rfl
  | cons p rest ih =>
    by_cases hb : p.1 = c
    · have hbt : (p.1 == c) = true := by simp [hb]
      simp [cacheCount, List.find?, hbt]
    · have hbf : (p.1 == c) = false := by simp [hb]
      have hstep : cacheCount ((p.1, (0 : Nat)) :: rest.map (fun p => (p.1, (0 : Nat)))) c =
          cacheCount (rest.map (fun p => (p.1, (0 : Nat)))) c := by
        simp [cacheCount, List.find?, hbf]
      simpa [hstep] using ih

/-- The cache left by an all-successful flush is the entry-wise reset. -/
theorem writeCacheToDB_cache_all (store : Store) (cache : Cache) :
    (writeCacheToDB (fun _ => true) store cache).2.1 =
      cache.map (fun p => (p.1, (0 : Nat))) := by
  rw [writeCacheToDB_cache]
  simp

/-- A recorded visit keeps the key list, appending its code when new. -/
theorem recordVisit_keys (cache : Cache) (c : String) :
    (recordVisit cache c).map Prod.fst =
      (if cache.any (fun p => p.1 == c) then cache.map Prod.fst
        else cache.map Prod.fst ++ [c]) := by
  induction cache with
  | nil => simp [recordVisit]
  | cons p rest ih =>
    obtain ⟨s, cnt⟩ := p
    by_cases hb : s = c
    · simp [recordVisit, List.any_cons, hb]
    · have hbf : (s == c) = false := by simp [hb]
      by_cases ha : rest.any (fun p => p.1 == c) <;>
        simp [recordVisit, List.any_cons, hbf, ih, ha]

/-- C1: a long URL already mapped in the store hits the dedup fast path of
createShortURL: the stored short code is returned at once and the store is
unchanged (no row is inserted); consequently a repeated call with the same
long URL returns the same code and again leaves the set of rows unchanged. -/
theorem claim1_dedup_fast_path (cfg : Config) (rnd : Nat → Nat → Nat) (now fuel : Nat)
    (store : Store) (u : String) :
    (∀ row, findByLongURL store u = some row →
      createShortURL cfg rnd now fuel store u = some (row.short_url, store)) ∧
    (∀ c store', createShortURL cfg rnd now fuel store u = some (c, store') →
      createShortURL cfg rnd now fuel store' u = some (c, store')) := by
  constructor
  · intro row hrow
    unfold createShortURL
    rw [hrow]
  · intro c store' h
    unfold createShortURL at h ⊢
    cases hf : findByLongURL store u with
    | some row =>
      rw [hf] at h
      dsimp only at h
      simp only [Option.some.injEq, Prod.mk.injEq] at h
      obtain ⟨hc, hst⟩ := h
      subst hst
      rw [hf]
      dsimp only
      rw [hc]
    | none =>
      rw [hf] at h
      dsimp only at h
      obtain ⟨hst, hex, -⟩ := createLoop_eq_some h
      subst hst
      rw [findByLongURL_append_fresh hf]
      rfl

/-- C1 witness: on the store mapping https to abc1, the dedup path returns
abc1 with the store unchanged, and a second call is stable. -/
theorem claim1_dedup_fast_path_witness :
    createShortURL ⟨4, ['a', 'b', 'c', '1', '2', '3']⟩ (fun _ _ => 0) 0 5
        [newRow "abc1" "https://example.com" 0] "https://example.com" =
      some ("abc1", [newRow "abc1" "https://example.com" 0]) ∧
    createShortURL ⟨4, ['a', 'b', 'c', '1', '2', '3']⟩ (fun _ _ => 0) 0 5
        [newRow "abc1" "https://example.com" 0] "https://example.com" =
      some ("abc1", [newRow "abc1" "https://example.com" 0]) :=
  ⟨(claim1_dedup_fast_path _ _ _ _ _ _).1 (newRow "abc1" "https://example.com" 0) (by decide),
   (claim1_dedup_fast_path _ _ _ _ _ _).2 "abc1" _ ((claim1_dedup_fast_path _ _ _ _ _ _).1
     (newRow "abc1" "https://example.com" 0) (by decide))⟩

/-- C2: COUNTEREXAMPLE to the claim that flush issues a storage update only
for entries with a non-zero pending count: on the tally abc1 = 5, def2 = 0
the writeCacheToDB loop issues TWO updates - including one adding 0 for
def2 - not exactly one, because the loop body has no zero test; the
repository's own TestWriteCacheToDB expects such an entry not to be
updated.  The post-flush tally is nonetheless all zeros, as claimed. -/
theorem claim2_flush_updates_zero_entries :
    (writeCacheToDB (fun _ => true) [newRow "abc1" "https://example.com" 0]
        [("abc1", 5), ("def2", 0)]).2.2 = [("abc1", 5), ("def2", 0)] ∧
    ((writeCacheToDB (fun _ => true) [newRow "abc1" "https://example.com" 0]
        [("abc1", 5), ("def2", 0)]).2.2).length = 2 ∧
    (writeCacheToDB (fun _ => true) [newRow "abc1" "https://example.com" 0]
        [("abc1", 5), ("def2", 0)]).2.1 = [("abc1", 0), ("def2", 0)] := by
  decide

/-- C3: a long URL not previously submitted receives a short code of exactly
the configured length, every character of which belongs to the configured
charset. -/
theorem claim3_fresh_code_length_charset (cfg : Config) (rnd : Nat → Nat → Nat)
    (now fuel : Nat) (store : Store) (u c : String) (store' : Store)
    (hnew : findByLongURL store u = none)
    (h : createShortURL cfg rnd now fuel store u = some (c, store')) :
    c.length = cfg.length ∧ ∀ ch ∈ c.data, ch ∈ cfg.charset := by
  unfold createShortURL at h
  rw [hnew] at h
  dsimp only at h
  obtain ⟨-, -, a, hr⟩ := createLoop_eq_some h
  exact randomString_eq_some hr

/-- C3 witness: a fresh create over charset a at length 1 yields the one
character code a. -/
theorem claim3_fresh_code_length_charset_witness :
    "a".length = (⟨1, ['a']⟩ : Config).length ∧ ∀ ch ∈ "a".data, ch ∈ ['a'] :=
  claim3_fresh_code_length_charset ⟨1, ['a']⟩ (fun _ _ => 0) 0 1 [] "u" "a"
    [newRow "a" "u" 0] (by decide) (by decide)

/-- C4: n recorded visits to a stored code c followed by an all-successful
flush raise the persisted visit_count of c by exactly n and leave the
in-memory pending count of c at 0. -/
theorem claim4_visits_then_flush (store : Store) (cache : Cache) (c : String) (n : Nat)
    (hkeys : keysNodup cache) (hc : cacheCount cache c = 0) (hrow : rowCount store c = 1) :
    dbVisitCount ((writeCacheToDB (fun _ => true) store (recordVisitN cache c n)).1) c =
      dbVisitCount store c + n ∧
    cacheCount ((writeCacheToDB (fun _ => true) store (recordVisitN cache c n)).2.1) c = 0 := by
  constructor
  · rw [writeCacheToDB_dbVisitCount, hrow, keySum_recordVisitN,
      keySum_eq_cacheCount c hkeys, hc]
    omega
  · rw [writeCacheToDB_cache_all, cacheCount_reset]

/-- C4 witness: three visits to abc1 and a flush over an empty tally raise
the persisted count by 3 and leave pending 0. -/
theorem claim4_visits_then_flush_witness :
    dbVisitCount ((writeCacheToDB (fun _ => true) [newRow "abc1" "https://example.com" 0]
        (recordVisitN [] "abc1" 3)).1) "abc1" =
      dbVisitCount [newRow "abc1" "https://example.com" 0] "abc1" + 3 ∧
    cacheCount ((writeCacheToDB (fun _ => true) [newRow "abc1" "https://example.com" 0]
        (recordVisitN [] "abc1" 3)).2.1) "abc1" = 0 :=
  claim4_visits_then_flush _ _ _ 3 (by decide) (by decide) (by decide)

/-- C5: flush failures are per-entry and non-fatal: an UPDATE is issued for
every entry regardless of earlier failures, a failing entry keeps its
pending count for the next cycle, and each successful entry is reset to 0. -/
theorem claim5_flush_per_entry_errors (ok : String → Bool) (store : Store) (cache : Cache) :
    (writeCacheToDB ok store cache).2.2 = cache ∧
    (writeCacheToDB ok store cache).2.1 =
      cache.map (fun p => if ok p.1 then (p.1, 0) else p) :=
  ⟨writeCacheToDB_upds ok store cache, writeCacheToDB_cache ok store cache⟩

/-- C6: created_at is set at insert time and never changed afterwards: the
visit-count UPDATE (used by the redirect path and by every flush step)
preserves the short_url, long_url and created_at of every row, the flush as
a whole does too, and createShortURL either leaves the store untouched or
appends one fresh row whose created_at is the insertion time. -/
theorem claim6_created_at_immutable (cnt : Nat) (s : String) (store : Store)
    (ok : String → Bool) (cache : Cache) (cfg : Config) (rnd : Nat → Nat → Nat)
    (now fuel : Nat) (u : String) :
    (updateVisitCount store cnt s).map identityFields = store.map identityFields ∧
    ((writeCacheToDB ok store cache).1).map identityFields = store.map identityFields ∧
    (∀ c store', createShortURL cfg rnd now fuel store u = some (c, store') →
      store' = store ∨ store' = store ++ [newRow c u now]) := by
  refine ⟨updateVisitCount_identityFields store cnt s,
    writeCacheToDB_identityFields ok store cache, ?_⟩
  intro c store' h
  unfold createShortURL at h
  cases hf : findByLongURL store u with
  | some row =>
    rw [hf] at h
    dsimp only at h
    simp only [Option.some.injEq, Prod.mk.injEq] at h
    exact Or.inl h.2.symm
  | none =>
    rw [hf] at h
    dsimp only at h
    exact Or.inr (createLoop_eq_some h).1

/-- C6 witness: a fresh create appends exactly the row stamped with the
insertion time 7. -/
theorem claim6_created_at_immutable_witness :
    [newRow "a" "u" 7] = ([] : Store) ∨
      [newRow "a" "u" 7] = ([] : Store) ++ [newRow "a" "u" 7] :=
  (claim6_created_at_immutable 0 "x" [] (fun _ => true) [] ⟨1, ['a']⟩
    (fun _ _ => 0) 7 1 "u").2.2 "a" [newRow "a" "u" 7] (by decide)

/-- C7: round trip - under the primary-key invariant, when createShortURL
returns code c for long URL u, looking c up in the resulting store returns
u. -/
theorem claim7_create_lookup_roundtrip (cfg : Config) (rnd : Nat → Nat → Nat)
    (now fuel : Nat) (store : Store) (u c : String) (store' : Store)
    (hnd : shortsNodup store)
    (h : createShortURL cfg rnd now fuel store u = some (c, store')) :
    getLongURL store' c = some u := by
  unfold createShortURL at h
  cases hf : findByLongURL store u with
  | some row =>
    rw [hf] at h
    dsimp only at h
    simp only [Option.some.injEq, Prod.mk.injEq] at h
    obtain ⟨hc, hst⟩ := h
    subst hst
    subst hc
    have hf' : store.find? (fun r => r.long_url == u) = some row := hf
    have hmem : row ∈ store := List.mem_of_find?_eq_some hf'
    have hlong : row.long_url = u := by
      have h2 := List.find?_some hf'
      simpa using h2
    rw [getLongURL_mem hnd hmem, hlong]
  | none =>
    rw [hf] at h
    dsimp only at h
    obtain ⟨hst, hex, -⟩ := createLoop_eq_some h
    subst hst
    exact getLongURL_append_fresh hex

/-- C7 witness: creating u in the empty store yields code a, and looking a
up returns u. -/
theorem claim7_create_lookup_roundtrip_witness :
    getLongURL [newRow "a" "u" 0] "a" = some "u" :=
  claim7_create_lookup_roundtrip ⟨1, ['a']⟩ (fun _ _ => 0) 0 1 [] "u" "a"
    [newRow "a" "u" 0] (by decide) (by decide)

/-- C8: COUNTEREXAMPLE to the claim that a mutual-exclusion discipline
protects the tally: the source takes no lock, so a redirect increment can
run between the flush's UPDATE of an entry (pending 5) and its reset to 0;
that increment is lost - persisted plus remaining pending total 5, although
the same operations serialized total 6. -/
theorem claim8_concurrent_increment_lost :
    dbVisitCount (flushEntryWithConcurrent [newRow "abc1" "https://example.com" 0]
        [("abc1", 5)] "abc1" (fun k => recordVisit k "abc1")).1 "abc1" +
      cacheCount (flushEntryWithConcurrent [newRow "abc1" "https://example.com" 0]
        [("abc1", 5)] "abc1" (fun k => recordVisit k "abc1")).2 "abc1" = 5 ∧
    dbVisitCount (flushEntryWithConcurrent [newRow "abc1" "https://example.com" 0]
        [("abc1", 5)] "abc1" (fun k => k)).1 "abc1" +
      cacheCount (recordVisit (flushEntryWithConcurrent
        [newRow "abc1" "https://example.com" 0] [("abc1", 5)] "abc1" (fun k => k)).2
        "abc1") "abc1" = 6 := by
  decide

/-- C9 counterexample: the claim says that with an empty charset (length a
multiple of 256) randomString panics on the modulo by zero, but at length 0
the Go loop body never runs: randomString(0) over the empty charset does
not panic and returns the empty string. -/
theorem claim9_counterexample :
    randomString ⟨4, ([] : List Char)⟩ (fun _ => 0) 0 ≠ none ∧
    randomString ⟨4, ([] : List Char)⟩ (fun _ => 0) 0 = some "" := by
  constructor
  · decide
  · decide

/-- C9 (amended): randomString terminates with n characters of the charset,
for every n, whenever byte(len(charset)) is non-zero; when the charset
length is 0 modulo 256 - the empty charset included - every call of
POSITIVE length divides by zero (a Go panic), while randomString(0) still
returns the empty string.  A non-empty charset of at most 255 characters
thus remains a genuine precondition of every code-generation call of
positive length. -/
theorem claim9_randomString_total_or_panic (cfg : Config) (rnd : Nat → Nat) (n : Nat) :
    (cfg.charset.length % 256 ≠ 0 →
      ∃ s, randomString cfg rnd n = some s ∧ s.length = n ∧
        ∀ ch ∈ s.data, ch ∈ cfg.charset) ∧
    (cfg.charset.length % 256 = 0 → 0 < n → randomString cfg rnd n = none) ∧
    randomString cfg rnd 0 = some "" := by
  refine ⟨?_, randomString_eq_none rnd n, randomString_zero cfg rnd⟩
  intro h
  obtain ⟨s, hs⟩ := randomString_isSome rnd n h
  obtain ⟨hlen, hch⟩ := randomString_eq_some hs
  exact ⟨s, hs, hlen, hch⟩

/-- C9 witness: over charset ab three characters are produced; over the
empty charset the call of length 3 panics (none). -/
theorem claim9_randomString_total_or_panic_witness :
    (∃ s, randomString ⟨4, ['a', 'b']⟩ (fun _ => 0) 3 = some s ∧ s.length = 3 ∧
      ∀ ch ∈ s.data, ch ∈ ['a', 'b']) ∧
    randomString ⟨4, ([] : List Char)⟩ (fun _ => 0) 3 = none :=
  ⟨(claim9_randomString_total_or_panic ⟨4, ['a', 'b']⟩ (fun _ => 0) 3).1 (by decide),
   (claim9_randomString_total_or_panic ⟨4, ([] : List Char)⟩ (fun _ => 0) 3).2.1
     (by decide) (by decide)⟩

/-- C10: the tally's key set only grows: a recorded visit preserves the
existing keys (appending its code only when new), the flush preserves the
key list exactly (no entry is ever deleted), and after an all-successful
flush every key reads 0. -/
theorem claim10_tally_keys_grow (ok : String → Bool) (store : Store)
    (cache : Cache) (c k : String) :
    ((writeCacheToDB ok store cache).2.1).map Prod.fst = cache.map Prod.fst ∧
    (recordVisit cache c).map Prod.fst =
      (if cache.any (fun p => p.1 == c) then cache.map Prod.fst
        else cache.map Prod.fst ++ [c]) ∧
    cacheCount ((writeCacheToDB (fun _ => true) store cache).2.1) k = 0 := by
  refine ⟨?_, recordVisit_keys cache c, ?_⟩
  · rw [writeCacheToDB_cache, List.map_map]
    apply List.map_congr_left
    intro p _
    by_cases h : ok p.1 = true <;> simp [h]
  · rw [writeCacheToDB_cache_all, cacheCount_reset]

end Shorty
